import Mathlib

/-!
Verification development for the pii-guardian-pro backend.

The Python modules `backend/utils/encrypt.py`, `backend/utils/pdf_utils.py`
and `backend/main.py` are shallowly embedded below.  Modelling decisions:

* Bytes are `List Nat` (each entry a byte value).
* PBKDF2-HMAC-SHA256 is an external library primitive; it is modelled as an
  ideal key-derivation function, i.e. the derived key is represented by the
  pair `(passkey, salt)` it is a deterministic function of.  Injectivity of
  the pair constructor is the standard ideal-KDF idealisation.
* `cryptography.fernet.Fernet` is an external authenticated-encryption
  primitive; a token is modelled symbolically as the triple
  (key used, random IV, plaintext), and decryption succeeds exactly when the
  token was produced under the supplied key.  The random IV drawn by
  `Fernet.encrypt` for each field is made explicit as an `ivs : Nat → Nat`
  stream argument (field `i` uses `ivs i`).
* The base64 transport of ciphertexts and of the salt inside the metadata
  dictionary / JSON sidecar (`b64encode` at store time, `b64decode` at load
  time) is a lossless round trip, so those fields hold the underlying values
  directly.  The fixed salt constant built with `base64.urlsafe_b64encode`
  is reproduced with a faithful base64 encoder.
* Python `dict`s keep insertion order; `field_mapping` is an association
  list.  Python exceptions are an explicit `PyExc` error type threaded with
  `Except`; the `"Invalid passkey" in str(e)` membership tests are modelled
  by a literal substring check.
* PDF rendering (PyMuPDF page redaction) and the filesystem are external
  collaborators: the PDF routines record which artifacts/sidecars they
  produce, and the presence of the JSON sidecar is an explicit
  `Option EncryptionMetadata` argument.
-/

namespace PiiGuardian

/-! ## Bytes and base64 (for the fixed-salt constant in `encrypt.py`) -/

/-- Bytes of an ASCII string literal (UTF-8 agrees with code points here). -/
def strBytes (s : String) : List Nat := s.data.map Char.toNat

/-- The base64 alphabet as byte values; `urlsafe` swaps `+ /` for `- _`. -/
def b64EncChar (urlsafe : Bool) (n : Nat) : Nat :=
  if n < 26 then 65 + n
  else if n < 52 then 97 + (n - 26)
  else if n < 62 then 48 + (n - 52)
  else if n = 62 then (if urlsafe then 45 else 43)
  else (if urlsafe then 95 else 47)

/-- Standard base64 encoding of a byte list, with `=` (61) padding. -/
def b64EncodeBytes (urlsafe : Bool) : List Nat → List Nat
  | [] => []
  | [b1] =>
      [b64EncChar urlsafe (b1 % 256 / 4), b64EncChar urlsafe (b1 % 256 % 4 * 16), 61, 61]
  | [b1, b2] =>
      [b64EncChar urlsafe (b1 % 256 / 4),
       b64EncChar urlsafe (b1 % 256 % 4 * 16 + b2 % 256 / 16),
       b64EncChar urlsafe (b2 % 256 % 16 * 4), 61]
  | b1 :: b2 :: b3 :: rest =>
      b64EncChar urlsafe (b1 % 256 / 4) ::
      b64EncChar urlsafe (b1 % 256 % 4 * 16 + b2 % 256 / 16) ::
      b64EncChar urlsafe (b2 % 256 % 16 * 4 + b3 % 256 / 64) ::
      b64EncChar urlsafe (b3 % 256 % 64) ::
      b64EncodeBytes urlsafe rest

/-- `base64.urlsafe_b64encode(b"piiguardian_salt_2024")`: the constant used by
`generate_key_from_passkey` whenever `salt is None` (encrypt.py line 23,
commented "Fixed salt for demo"). -/
def demoFixedSalt : List Nat := b64EncodeBytes true (strBytes "piiguardian_salt_2024")

/-! ## Ideal models of the external crypto primitives -/

/-- Ideal model of the PBKDF2-HMAC-SHA256 derived key: a deterministic,
collision-free function of the passkey and the salt, represented by the
pair itself. -/
structure DerivedKey where
  passkey : String
  salt : List Nat
deriving DecidableEq, Repr

/-- Symbolic Fernet token: records the key it was produced under, the random
IV drawn by `Fernet.encrypt`, and the protected plaintext. -/
structure FernetToken where
  key : DerivedKey
  iv : Nat
  plaintext : String
deriving DecidableEq, Repr

/-- `Fernet(key).encrypt(plaintext)` with an explicit random IV. -/
def fernetEncrypt (k : DerivedKey) (iv : Nat) (pt : String) : FernetToken :=
  { key := k, iv := iv, plaintext := pt }

/-- `Fernet(key).decrypt(token)`: authenticated decryption succeeds exactly
when the token was produced under `k`; otherwise `InvalidToken` (`none`). -/
def fernetDecrypt (k : DerivedKey) (t : FernetToken) : Option String :=
  if t.key = k then some t.plaintext else none

/-! ## Python exceptions and string membership -/

/-- The Python exceptions raised by the embedded code. -/
inductive PyExc where
  | valueError (msg : String)
  | fileNotFoundError (msg : String)
  | exception (msg : String)
  | httpException (status : Nat) (detail : String)
deriving DecidableEq, Repr

/-- `str(e)` for the exceptions above (Starlette's `HTTPException.__str__`
is `f"{status_code}: {detail}"`). -/
def pyStr : PyExc → String
  | .valueError m => m
  | .fileNotFoundError m => m
  | .exception m => m
  | .httpException s d => toString s ++ ": " ++ d

/-- Whether `pat` occurs as a contiguous sublist of `s`. -/
def subOccurs (pat : List Char) : List Char → Bool
  | [] => pat.isEmpty
  | c :: rest => pat.isPrefixOf (c :: rest) || subOccurs pat rest

/-- Python's `pat in s` substring test. -/
def strContains (s pat : String) : Bool := subOccurs pat.data s.data

/-! ## Data model (`encrypt.py`) -/

/-- A detected PII field as consumed by `encrypt_pii_fields`: the keys it
reads are `type`, `original_value` and `location` (`location` is an opaque
carried-through payload, modelled as a string). -/
structure PiiField where
  type : String
  original_value : String
  location : String
deriving DecidableEq, Repr

/-- The record built at encrypt.py lines 60-65: the source field spread
(`**field`) plus placeholder id, ciphertext and an `encrypted` flag. -/
structure EncryptedFieldRecord where
  type : String
  original_value : String
  location : String
  placeholder_id : String
  encrypted_value : FernetToken
  encrypted : Bool
deriving DecidableEq, Repr

/-- One value of the `field_mapping` dict (encrypt.py lines 69-74). -/
structure FieldMappingEntry where
  original_value : String
  encrypted_value : FernetToken
  type : String
  location : String
deriving DecidableEq, Repr

/-- The dictionary returned by `encrypt_pii_fields` (encrypt.py lines 76-81). -/
structure EncryptionMetadata where
  encrypted_fields : List EncryptedFieldRecord
  field_mapping : List (String × FieldMappingEntry)
  salt : List Nat
  encryption_method : String
deriving DecidableEq, Repr

/-! ## Key derivation and placeholder ids -/

/-- `generate_key_from_passkey` (encrypt.py lines 11-32): a `None` salt is
replaced by the fixed demo constant, then PBKDF2 derives the key. -/
def generate_key_from_passkey (passkey : String) (salt : Option (List Nat)) :
    DerivedKey × List Nat :=
  match salt with
  | none => ({ passkey := passkey, salt := demoFixedSalt }, demoFixedSalt)
  | some s => ({ passkey := passkey, salt := s }, s)

/-- Decimal digit character, code point `48 + d`. -/
def decDigitChar (d : Nat) : Char := Char.ofNat (48 + d)

/-- Little-endian decimal digits of `n`, with structural fuel (`fuel ≥ n`
suffices). -/
def decDigitsAux : Nat → Nat → List Nat
  | 0, _ => []
  | _ + 1, 0 => []
  | fuel + 1, n + 1 => (n + 1) % 10 :: decDigitsAux fuel ((n + 1) / 10)

/-- Little-endian decimal digits of `n` (empty for 0). -/
def decDigits (n : Nat) : List Nat := decDigitsAux n n

/-- Python `str(n)` for a natural number: decimal, no leading zeros. -/
def natDecimalStr (n : Nat) : String :=
  if n = 0 then "0" else String.mk (((decDigits n).map decDigitChar).reverse)

/-- Python `f"{n:03d}"`: left-pad the decimal rendering with zeros to
width 3. -/
def pad3 (n : Nat) : String :=
  if (natDecimalStr n).length < 3 then
    String.mk (List.replicate (3 - (natDecimalStr n).length) '0' ++ (natDecimalStr n).data)
  else natDecimalStr n

/-- `f"ENCRYPTED_FIELD_{i+1:03d}"` for the 0-based loop index `i`
(encrypt.py line 54). -/
def placeholderId (i : Nat) : String := "ENCRYPTED_FIELD_" ++ pad3 (i + 1)

/-! ## Field encryption and decryption -/

/-- The `field_mapping` value stored for one field (encrypt.py lines 69-74).
Note the plaintext `original_value` is stored verbatim. -/
def mkMappingEntry (f : PiiField) (tok : FernetToken) : FieldMappingEntry :=
  { original_value := f.original_value, encrypted_value := tok,
    type := f.type, location := f.location }

/-- The `encrypted_field` record for one field (encrypt.py lines 60-65). -/
def mkEncryptedFieldRecord (f : PiiField) (pid : String) (tok : FernetToken) :
    EncryptedFieldRecord :=
  { type := f.type, original_value := f.original_value, location := f.location,
    placeholder_id := pid, encrypted_value := tok, encrypted := true }

/-- `encrypt_pii_fields` (encrypt.py lines 34-88): derive key and salt with
`salt=None`, then for each field in input order assign the placeholder id,
encrypt `original_value` with a fresh IV, and record both the audit record
and the `field_mapping` entry. -/
def encrypt_pii_fields (pii_fields : List PiiField) (passkey : String)
    (ivs : Nat → Nat) : EncryptionMetadata :=
  { encrypted_fields := pii_fields.enum.map fun p =>
      mkEncryptedFieldRecord p.2 (placeholderId p.1)
        (fernetEncrypt (generate_key_from_passkey passkey none).1 (ivs p.1)
          p.2.original_value)
    field_mapping := pii_fields.enum.map fun p =>
      (placeholderId p.1,
        mkMappingEntry p.2
          (fernetEncrypt (generate_key_from_passkey passkey none).1 (ivs p.1)
            p.2.original_value))
    salt := (generate_key_from_passkey passkey none).2
    encryption_method := "AES-256-Fernet" }

/-- The decryption loop of `decrypt_pii_fields` (encrypt.py lines 106-118):
walk `field_mapping` in order, aborting with
`ValueError("Invalid passkey or corrupted data")` at the first entry whose
token fails authentication. -/
def decryptLoop (k : DerivedKey) :
    List (String × FieldMappingEntry) → Except PyExc (List (String × String))
  | [] => .ok []
  | (pid, fd) :: rest =>
    match fernetDecrypt k fd.encrypted_value with
    | none => .error (.valueError "Invalid passkey or corrupted data")
    | some v =>
      match decryptLoop k rest with
      | .ok m => .ok ((pid, v) :: m)
      | .error e => .error e

/-- `decrypt_pii_fields` (encrypt.py lines 90-127): rederive the key from the
stored salt, run the loop, and rewrap any exception whose text contains
"Invalid passkey" as `ValueError("Invalid passkey provided")` (anything else
as a generic failure). -/
def decrypt_pii_fields (md : EncryptionMetadata) (passkey : String) :
    Except PyExc (List (String × String)) :=
  match decryptLoop (generate_key_from_passkey passkey (some md.salt)).1
      md.field_mapping with
  | .ok m => .ok m
  | .error e =>
    if strContains (pyStr e) "Invalid passkey" then
      .error (.valueError "Invalid passkey provided")
    else
      .error (.exception ("Failed to decrypt PII fields: " ++ pyStr e))

/-- `generate_placeholder_text` (encrypt.py lines 129-140). -/
def generate_placeholder_text (placeholder_id pii_type : String) : String :=
  "[" ++ placeholder_id ++ ":" ++ pii_type ++ "]"

/-- `validate_passkey_strength` (encrypt.py lines 142-160). -/
def validate_passkey_strength (passkey : String) : Bool :=
  if passkey.length < 8 then false else true

/-! ## PDF generation (`pdf_utils.py`)

Page redaction itself is the external rendering collaborator; what the
embedding tracks is the control flow, the errors raised, and which artifacts
(redacted PDF, JSON metadata sidecar) a call produces.  Filesystem path
derivation (`Path(...).stem`, suffix swaps) is abstracted to prefixing. -/

/-- Observable outcome of the redact path: the returned value or exception,
whether field encryption ran, and the sidecar/artifact written. -/
structure RedactOutcome where
  result : Except PyExc String
  encryptionWork : Bool
  sidecar : Option EncryptionMetadata
  artifact : Option String
deriving Repr

/-- `generate_encrypted_pdf` (pdf_utils.py lines 13-69): encrypts the fields,
performs the page substitutions (external), saves the redacted PDF and dumps
the metadata JSON sidecar next to it. -/
def generate_encrypted_pdf (original_path : String) (pii_fields : List PiiField)
    (passkey : String) (ivs : Nat → Nat) : RedactOutcome :=
  let md := encrypt_pii_fields pii_fields passkey ivs
  let encrypted_path := "encrypted_" ++ original_path
  { result := .ok encrypted_path
    encryptionWork := true
    sidecar := some md
    artifact := some encrypted_path }

/-- `generate_decrypted_pdf` (pdf_utils.py lines 71-133): the sidecar
metadata (an absent file is `none`) is loaded, the fields decrypted, the
substitutions applied (external) and the result saved.  The handlers rewrap
a `ValueError` containing "Invalid passkey" and turn every other exception
(including the `FileNotFoundError` for a missing sidecar) into a generic
`Exception("Failed to generate decrypted PDF: ...")`.  This is the `try`
body. -/
def decryptPdfBody (encrypted_path : String) (sidecar : Option EncryptionMetadata)
    (passkey : String) : Except PyExc String :=
  match sidecar with
  | none => .error (.fileNotFoundError "Encryption metadata not found")
  | some md =>
    match decrypt_pii_fields md passkey with
    | .error e => .error e
    | .ok _ => .ok ("decrypted_" ++ encrypted_path)

/-- The `except` clauses of `generate_decrypted_pdf` applied to the `try`
body above. -/
def generate_decrypted_pdf (encrypted_path : String)
    (sidecar : Option EncryptionMetadata) (passkey : String) :
    Except PyExc String :=
  match decryptPdfBody encrypted_path sidecar passkey with
  | .ok p => .ok p
  | .error (.valueError msg) =>
    if strContains msg "Invalid passkey" then
      .error (.valueError "Invalid passkey provided")
    else .error (.valueError msg)
  | .error e => .error (.exception ("Failed to generate decrypted PDF: " ++ pyStr e))

/-! ## HTTP endpoints (`main.py`) -/

/-- The parts of a `documents_store` record the encrypt/decrypt endpoints
read. -/
structure DocRecord where
  original_path : String
  detected_pii : Option (List PiiField)
  encrypted_path : Option String
deriving Repr

/-- `document_id in documents_store` / `documents_store[document_id]`. -/
def lookupDoc (store : List (String × DocRecord)) (id : String) :
    Option DocRecord :=
  (store.find? fun p => p.1 == id).map Prod.snd

/-- `encrypt_document` (main.py lines 111-147): validates the record, the
analyzed state and the passkey length before any encryption work, then calls
`generate_encrypted_pdf`.  Its `except Exception` wrapper re-raises every
exception — including the `HTTPException`s raised by the checks themselves —
as `HTTPException(500, "Encryption failed: ...")`.  This is the `try`
body. -/
def encryptEndpointBody (store : List (String × DocRecord))
    (document_id passkey : String) (ivs : Nat → Nat) : RedactOutcome :=
  match lookupDoc store document_id with
  | none =>
    { result := .error (.httpException 404 "Document not found"),
      encryptionWork := false, sidecar := none, artifact := none }
  | some doc =>
    match doc.detected_pii with
    | none =>
      { result := .error (.httpException 400 "Document must be analyzed first"),
        encryptionWork := false, sidecar := none, artifact := none }
    | some [] =>
      { result := .error (.httpException 400 "Document must be analyzed first"),
        encryptionWork := false, sidecar := none, artifact := none }
    | some (f :: fs) =>
      if passkey.length < 8 then
        { result := .error (.httpException 400 "Passkey must be at least 8 characters"),
          encryptionWork := false, sidecar := none, artifact := none }
      else
        generate_encrypted_pdf doc.original_path (f :: fs) passkey ivs

/-- The `except Exception` clause of `encrypt_document` applied to the `try`
body above. -/
def encrypt_document (store : List (String × DocRecord))
    (document_id passkey : String) (ivs : Nat → Nat) : RedactOutcome :=
  match (encryptEndpointBody store document_id passkey ivs).result with
  | .ok _ => encryptEndpointBody store document_id passkey ivs
  | .error e =>
    { encryptEndpointBody store document_id passkey ivs with
      result := .error (.httpException 500 ("Encryption failed: " ++ pyStr e)) }

/-- `decrypt_document` (main.py lines 149-185): validates the record and the
presence of an encrypted artifact, then calls `generate_decrypted_pdf` with
the sidecar found next to that artifact.  A `ValueError` containing
"Invalid passkey" becomes `HTTPException(401)`, any other `ValueError`
`HTTPException(400)`, and every other exception — again including the 404
`HTTPException`s raised inside the `try` — `HTTPException(500)`.  This is
the `try` body. -/
def decryptEndpointBody (store : List (String × DocRecord)) (document_id : String)
    (sidecar : Option EncryptionMetadata) (passkey : String) :
    Except PyExc String :=
  match lookupDoc store document_id with
  | none => .error (.httpException 404 "Document not found")
  | some doc =>
    match doc.encrypted_path with
    | none => .error (.httpException 404 "Encrypted document not found")
    | some ep => generate_decrypted_pdf ep sidecar passkey

/-- The `except` clauses of `decrypt_document` applied to the `try` body
above. -/
def decrypt_document (store : List (String × DocRecord)) (document_id : String)
    (sidecar : Option EncryptionMetadata) (passkey : String) :
    Except PyExc String :=
  match decryptEndpointBody store document_id sidecar passkey with
  | .ok p => .ok p
  | .error (.valueError msg) =>
    if strContains msg "Invalid passkey" then
      .error (.httpException 401 "Invalid passkey")
    else .error (.httpException 400 msg)
  | .error e => .error (.httpException 500 ("Decryption failed: " ++ pyStr e))

/-! ## Concrete sample inputs (the scenario of spec §8) -/

/-- A sample detected field. -/
def sampleField : PiiField :=
  { type := "identifier-number", original_value := "123-45-6789", location := "page-1" }

/-- A one-element field list. -/
def sampleFields : List PiiField := [sampleField]

/-- A concrete IV stream. -/
def sampleIvs : Nat → Nat := fun n => n

/-- A document record in the analyzed-and-encrypted state. -/
def sampleDoc : DocRecord :=
  { original_path := "doc.pdf", detected_pii := some sampleFields,
    encrypted_path := some "encrypted_doc.pdf" }

/-- A one-document store. -/
def sampleStore : List (String × DocRecord) := [("1", sampleDoc)]

/-! ## Helper lemmas: decimal renderings and placeholder ids are injective -/

/-- Decimal value of a digit string, most significant digit first. -/
def evalDigits (cs : List Char) : Nat :=
  cs.foldl (fun a c => 10 * a + (c.toNat - 48)) 0

theorem decDigitChar_toNat {d : Nat} (h : d < 10) : (decDigitChar d).toNat = 48 + d := by
  interval_cases d <;> decide

theorem foldl_zeros (k : Nat) :
    List.foldl (fun a c => 10 * a + (c.toNat - 48)) 0 (List.replicate k '0') = 0 := by
  induction k with
  | zero => rfl
  | succ n ih =>
    simp only [List.replicate_succ, List.foldl_cons]
    have h0 : 10 * 0 + (('0' : Char).toNat - 48) = 0 := by decide
    rw [h0]
    exact ih

theorem evalDigits_reverse_map :
    ∀ (ds : List Nat), (∀ d ∈ ds, d < 10) →
      evalDigits ((ds.map decDigitChar).reverse) = Nat.ofDigits 10 ds := by
  intro ds
  induction ds with
  | nil => intro _; simp [evalDigits, Nat.ofDigits_nil]
  | cons d t ih =>
    intro h
    have hd : d < 10 := h d (by simp)
    have ht := ih fun x hx => h x (by simp [hx])
    simp only [List.map_cons, List.reverse_cons]
    unfold evalDigits
    rw [List.foldl_append]
    simp only [List.foldl_cons, List.foldl_nil]
    unfold evalDigits at ht
    rw [ht, decDigitChar_toNat hd, Nat.ofDigits_cons]
    omega

theorem decDigitsAux_lt :
    ∀ fuel n d : Nat, d ∈ decDigitsAux fuel n → d < 10 := by
  intro fuel
  induction fuel with
  | zero => intro n d h; simp [decDigitsAux] at h
  | succ f ih =>
    intro n d h
    cases n with
    | zero => simp [decDigitsAux] at h
    | succ m =>
      simp only [decDigitsAux, List.mem_cons] at h
      rcases h with h | h
      · subst h; exact Nat.mod_lt _ (by omega)
      · exact ih _ _ h

theorem ofDigits_decDigitsAux :
    ∀ fuel n : Nat, n ≤ fuel → Nat.ofDigits 10 (decDigitsAux fuel n) = n := by
  intro fuel
  induction fuel with
  | zero =>
    intro n h
    interval_cases n
    simp [decDigitsAux, Nat.ofDigits_nil]
  | succ f ih =>
    intro n h
    cases n with
    | zero => simp [decDigitsAux, Nat.ofDigits_nil]
    | succ m =>
      have hdiv : (m + 1) / 10 ≤ f := by
        have := Nat.div_lt_self (Nat.succ_pos m) (by omega : 1 < 10)
        omega
      simp only [decDigitsAux, Nat.ofDigits_cons]
      rw [ih _ hdiv]
      omega

theorem evalDigits_natDecimalStr (n : Nat) : evalDigits (natDecimalStr n).data = n := by
  by_cases h : n = 0
  · subst h; decide
  · unfold natDecimalStr
    rw [if_neg h]
    show evalDigits (((decDigits n).map decDigitChar).reverse) = n
    unfold decDigits
    rw [evalDigits_reverse_map _ fun d hd => decDigitsAux_lt n n d hd]
    exact ofDigits_decDigitsAux n n le_rfl

theorem evalDigits_pad3 (n : Nat) : evalDigits (pad3 n).data = n := by
  unfold pad3
  split
  · show evalDigits (List.replicate _ '0' ++ (natDecimalStr n).data) = n
    unfold evalDigits
    rw [List.foldl_append, foldl_zeros]
    exact evalDigits_natDecimalStr n
  · exact evalDigits_natDecimalStr n

theorem pad3_injective : Function.Injective pad3 := by
  intro a b h
  have h2 := congrArg (fun s => evalDigits s.data) h
  simpa [evalDigits_pad3] using h2

theorem string_append_cancel_left {s t1 t2 : String} (h : s ++ t1 = s ++ t2) : t1 = t2 := by
  apply String.ext
  have h2 := congrArg String.data h
  rw [String.data_append, String.data_append] at h2
  exact List.append_cancel_left h2

theorem placeholderId_injective : Function.Injective placeholderId := by
  intro a b h
  have h2 := pad3_injective (string_append_cancel_left h)
  omega

/-! ## Helper lemmas: the decryption loop -/

theorem contains_invalid_passkey :
    strContains "Invalid passkey or corrupted data" "Invalid passkey" = true := by decide

theorem decryptLoop_all_ok (k : DerivedKey) :
    ∀ l : List (String × FieldMappingEntry),
      (∀ e ∈ l, e.2.encrypted_value.key = k) →
      decryptLoop k l = .ok (l.map fun e => (e.1, e.2.encrypted_value.plaintext)) := by
  intro l
  induction l with
  | nil => intro _; rfl
  | cons e t ih =>
    intro h
    have ht := ih fun x hx => h x (by simp [hx])
    obtain ⟨pid, fd⟩ := e
    have he : fd.encrypted_value.key = k := h (pid, fd) (by simp)
    simp [decryptLoop, fernetDecrypt, he, ht]

theorem decryptLoop_fail (k : DerivedKey) :
    ∀ l : List (String × FieldMappingEntry),
      (∃ e ∈ l, fernetDecrypt k e.2.encrypted_value = none) →
      decryptLoop k l = .error (.valueError "Invalid passkey or corrupted data") := by
  intro l
  induction l with
  | nil => rintro ⟨x, hx, _⟩; cases hx
  | cons e t ih =>
    rintro ⟨x, hx, hfail⟩
    obtain ⟨pid, fd⟩ := e
    rcases List.mem_cons.mp hx with h1 | h2
    · subst h1
      simp [decryptLoop, hfail]
    · cases hd : fernetDecrypt k fd.encrypted_value with
      | none => simp [decryptLoop, hd]
      | some v =>
        have ht := ih ⟨x, h2, hfail⟩
        simp [decryptLoop, hd, ht]

theorem decryptLoop_ok_inv (k : DerivedKey) :
    ∀ (l : List (String × FieldMappingEntry)) (m : List (String × String)),
      decryptLoop k l = .ok m →
      m.map Prod.fst = l.map Prod.fst ∧
      ∀ e ∈ l, fernetDecrypt k e.2.encrypted_value ≠ none := by
  intro l
  induction l with
  | nil =>
    intro m h
    have : m = [] := by
      simpa [decryptLoop] using h.symm
    subst this
    exact ⟨rfl, by simp⟩
  | cons e t ih =>
    intro m h
    obtain ⟨pid, fd⟩ := e
    cases hd : fernetDecrypt k fd.encrypted_value with
    | none => simp [decryptLoop, hd] at h
    | some v =>
      cases hrest : decryptLoop k t with
      | error e2 => simp [decryptLoop, hd, hrest] at h
      | ok m2 =>
        have hm : m = (pid, v) :: m2 := by
          simpa [decryptLoop, hd, hrest] using h.symm
        subst hm
        obtain ⟨ih1, ih2⟩ := ih m2 hrest
        refine ⟨by simp [ih1], ?_⟩
        intro x hx
        rcases List.mem_cons.mp hx with h1 | h2
        · subst h1; simp [hd]
        · exact ih2 x h2

/-! ## Claim theorems -/

/-- C1: the claim that two calls to `encrypt_pii_fields` with identical
inputs and passkey produce different salts is false on the code: for every
field list, passkey and pair of encryption-randomness streams, the two
metadata salts are identical, because `generate_key_from_passkey` with
`salt = None` returns the fixed constant
`base64.urlsafe_b64encode(b"piiguardian_salt_2024")` rather than a fresh
random salt. -/
theorem C1_salt_fixed_across_sessions (fields : List PiiField) (passkey : String)
    (ivs1 ivs2 : Nat → Nat) :
    (encrypt_pii_fields fields passkey ivs1).salt
        = (encrypt_pii_fields fields passkey ivs2).salt ∧
    (encrypt_pii_fields fields passkey ivs1).salt = demoFixedSalt ∧
    (generate_key_from_passkey passkey none).2 = demoFixedSalt :=
  ⟨rfl, rfl, rfl⟩

/-- C2: the claim that the metadata contains no plaintext copy of any
`original_value` outside the ciphertext is false on the code: every field's
`original_value` is stored verbatim both in its `field_mapping` entry and in
its carried-through `encrypted_fields` record, and `generate_encrypted_pdf`
persists exactly this metadata as the JSON sidecar. -/
theorem C2_plaintext_kept_in_metadata (fields : List PiiField) (passkey : String)
    (ivs : Nat → Nat) (original_path : String) :
    ((encrypt_pii_fields fields passkey ivs).field_mapping.map fun p =>
        p.2.original_value) = fields.map PiiField.original_value ∧
    ((encrypt_pii_fields fields passkey ivs).encrypted_fields.map
        EncryptedFieldRecord.original_value) = fields.map PiiField.original_value ∧
    (generate_encrypted_pdf original_path fields passkey ivs).sidecar
        = some (encrypt_pii_fields fields passkey ivs) := by
  refine ⟨?_, ?_, rfl⟩
  · conv_rhs => rw [← List.enum_map_snd fields]
    simp only [encrypt_pii_fields, List.map_map]
    rfl
  · conv_rhs => rw [← List.enum_map_snd fields]
    simp only [encrypt_pii_fields, List.map_map]
    rfl

/-- C5: placeholder uniqueness holds: for every input field list (duplicate
`original_value`s included, since ids depend only on the position), the keys
of `field_mapping` are pairwise distinct. -/
theorem C5_placeholder_ids_nodup (fields : List PiiField) (passkey : String)
    (ivs : Nat → Nat) :
    ((encrypt_pii_fields fields passkey ivs).field_mapping.map Prod.fst).Nodup := by
  have h : (encrypt_pii_fields fields passkey ivs).field_mapping.map Prod.fst
      = (fields.enum.map Prod.fst).map placeholderId := by
    simp only [encrypt_pii_fields, List.map_map]
    rfl
  rw [h]
  exact List.Nodup.map placeholderId_injective (List.nodup_enum_map_fst fields)

/-- C6: no field is dropped or merged: `field_mapping` has exactly one entry
per input field, and the entry at position `i` is derived from the field at
input position `i` (placeholder id for index `i`, ciphertext of that field's
`original_value`). -/
theorem C6_mapping_complete_in_input_order (fields : List PiiField)
    (passkey : String) (ivs : Nat → Nat) :
    (encrypt_pii_fields fields passkey ivs).field_mapping.length = fields.length ∧
    ∀ i f0, fields[i]? = some f0 →
      (encrypt_pii_fields fields passkey ivs).field_mapping[i]?
        = some (placeholderId i,
            mkMappingEntry f0
              (fernetEncrypt (generate_key_from_passkey passkey none).1 (ivs i)
                f0.original_value)) := by
  constructor
  · simp [encrypt_pii_fields, List.enum_length]
  · intro i f0 h
    simp [encrypt_pii_fields, List.getElem?_map, List.getElem?_enum, h]

/-- C6 witness: on the one-element sample list, the mapping entry at index 0
is derived from the field at index 0. -/
theorem C6_mapping_complete_in_input_order_witness :
    sampleFields[0]? = some sampleField ∧
    (encrypt_pii_fields sampleFields "correct-horse" sampleIvs).field_mapping[0]?
      = some (placeholderId 0,
          mkMappingEntry sampleField
            (fernetEncrypt (generate_key_from_passkey "correct-horse" none).1
              (sampleIvs 0) sampleField.original_value)) :=
  ⟨rfl,
   (C6_mapping_complete_in_input_order sampleFields "correct-horse" sampleIvs).2
     0 sampleField rfl⟩

/-- C10: decrypting metadata whose `field_mapping` is empty succeeds with an
empty mapping for every passkey and every stored salt: the loop never runs,
so no passkey check of any kind occurs. -/
theorem C10_empty_mapping_succeeds (efs : List EncryptedFieldRecord)
    (salt : List Nat) (method passkey : String) :
    decrypt_pii_fields
        { encrypted_fields := efs, field_mapping := [], salt := salt,
          encryption_method := method } passkey = .ok [] := rfl

/-- C3: round trip: decrypting the metadata produced by encrypting any field
list under any passkey meeting the strength policy, with the same passkey,
yields exactly the placeholder ids paired with the original values,
byte-for-byte and in input order. -/
theorem C3_round_trip (fields : List PiiField) (passkey : String)
    (ivs : Nat → Nat) (_hpolicy : validate_passkey_strength passkey = true) :
    decrypt_pii_fields (encrypt_pii_fields fields passkey ivs) passkey
      = .ok (fields.enum.map fun p => (placeholderId p.1, p.2.original_value)) := by
  have hmem : ∀ e ∈ (encrypt_pii_fields fields passkey ivs).field_mapping,
      e.2.encrypted_value.key = (generate_key_from_passkey passkey none).1 := by
    intro e he
    simp only [encrypt_pii_fields, List.mem_map] at he
    obtain ⟨p, _, rfl⟩ := he
    rfl
  have hloop := decryptLoop_all_ok (generate_key_from_passkey passkey none).1
    (encrypt_pii_fields fields passkey ivs).field_mapping hmem
  unfold decrypt_pii_fields
  rw [show (generate_key_from_passkey passkey
        (some (encrypt_pii_fields fields passkey ivs).salt)).1
      = (generate_key_from_passkey passkey none).1 from rfl]
  rw [hloop]
  simp only [encrypt_pii_fields, List.map_map]
  rfl

/-- C3 witness: the spec §8 scenario, with the strength policy discharged on
the concrete passkey. -/
theorem C3_round_trip_witness :
    validate_passkey_strength "correct-horse" = true ∧
    decrypt_pii_fields (encrypt_pii_fields sampleFields "correct-horse" sampleIvs)
        "correct-horse"
      = .ok [("ENCRYPTED_FIELD_001", "123-45-6789")] :=
  ⟨by decide,
   by rw [C3_round_trip sampleFields "correct-horse" sampleIvs (by decide)]; rfl⟩

/-- C4: wrong-key rejection: decrypting metadata produced from a non-empty
field list under passkey `P` with any different passkey `Q` yields the
authentication `ValueError("Invalid passkey provided")`, not a mapping. -/
theorem C4_wrong_passkey_rejected (fields : List PiiField) (P Q : String)
    (ivs : Nat → Nat) (hne : fields ≠ []) (hPQ : Q ≠ P) :
    decrypt_pii_fields (encrypt_pii_fields fields P ivs) Q
      = .error (.valueError "Invalid passkey provided") := by
  obtain ⟨f, fs, rfl⟩ : ∃ f fs, fields = f :: fs := by
    cases fields with
    | nil => exact absurd rfl hne
    | cons f fs => exact ⟨f, fs, rfl⟩
  have hfail : fernetDecrypt
      (generate_key_from_passkey Q (some ((encrypt_pii_fields (f :: fs) P ivs).salt))).1
      (fernetEncrypt (generate_key_from_passkey P none).1 (ivs 0) f.original_value)
      = none := by
    simp only [fernetDecrypt, fernetEncrypt, generate_key_from_passkey]
    rw [if_neg]
    simp only [DerivedKey.mk.injEq, not_and]
    intro hP _
    exact hPQ hP.symm
  have hex : ∃ e ∈ (encrypt_pii_fields (f :: fs) P ivs).field_mapping,
      fernetDecrypt
        (generate_key_from_passkey Q
          (some ((encrypt_pii_fields (f :: fs) P ivs).salt))).1
        e.2.encrypted_value = none := by
    refine ⟨(placeholderId 0,
      mkMappingEntry f
        (fernetEncrypt (generate_key_from_passkey P none).1 (ivs 0)
          f.original_value)), ?_, hfail⟩
    simp [encrypt_pii_fields, List.enum_cons]
  have hloop := decryptLoop_fail _ _ hex
  unfold decrypt_pii_fields
  rw [hloop]
  simp [pyStr, contains_invalid_passkey]

/-- C4 witness: the spec §8 scenario, decrypting with "wrong-horse". -/
theorem C4_wrong_passkey_rejected_witness :
    sampleFields ≠ [] ∧ ("wrong-horse" : String) ≠ "correct-horse" ∧
    decrypt_pii_fields (encrypt_pii_fields sampleFields "correct-horse" sampleIvs)
        "wrong-horse"
      = .error (.valueError "Invalid passkey provided") :=
  ⟨by decide, by decide,
   C4_wrong_passkey_rejected sampleFields "correct-horse" "wrong-horse" sampleIvs
     (by decide) (by decide)⟩

/-- C9: total abort: if any single `field_mapping` entry fails
authentication under the rederived key, `decrypt_pii_fields` returns the one
authentication error and no mapping; and whenever it does return a mapping,
every entry decrypted successfully and the mapping covers exactly the
placeholder ids, in order. -/
theorem C9_decrypt_total_abort (md : EncryptionMetadata) (passkey : String) :
    ((∃ e ∈ md.field_mapping,
        fernetDecrypt (generate_key_from_passkey passkey (some md.salt)).1
          e.2.encrypted_value = none) →
      decrypt_pii_fields md passkey
        = .error (.valueError "Invalid passkey provided")) ∧
    (∀ m, decrypt_pii_fields md passkey = .ok m →
      m.map Prod.fst = md.field_mapping.map Prod.fst ∧
      ∀ e ∈ md.field_mapping,
        fernetDecrypt (generate_key_from_passkey passkey (some md.salt)).1
          e.2.encrypted_value ≠ none) := by
  constructor
  · intro hex
    have hloop := decryptLoop_fail _ _ hex
    unfold decrypt_pii_fields
    rw [hloop]
    simp [pyStr, contains_invalid_passkey]
  · intro m hm
    unfold decrypt_pii_fields at hm
    cases hloop : decryptLoop (generate_key_from_passkey passkey (some md.salt)).1
        md.field_mapping with
    | ok m2 =>
      rw [hloop] at hm
      simp only [Except.ok.injEq] at hm
      subst hm
      exact decryptLoop_ok_inv _ _ _ hloop
    | error e =>
      rw [hloop] at hm
      by_cases hc : strContains (pyStr e) "Invalid passkey" = true
      · simp [hc] at hm
      · simp [hc] at hm

/-- C9 witness: a metadata whose single entry was encrypted under a
different passkey's key fails authentication and aborts with the one
authentication error. -/
theorem C9_decrypt_total_abort_witness :
    (∃ e ∈ (encrypt_pii_fields sampleFields "correct-horse" sampleIvs).field_mapping,
      fernetDecrypt
        (generate_key_from_passkey "wrong-horse"
          (some ((encrypt_pii_fields sampleFields "correct-horse" sampleIvs).salt))).1
        e.2.encrypted_value = none) ∧
    decrypt_pii_fields (encrypt_pii_fields sampleFields "correct-horse" sampleIvs)
        "wrong-horse"
      = .error (.valueError "Invalid passkey provided") := by
  have hex : ∃ e ∈ (encrypt_pii_fields sampleFields "correct-horse" sampleIvs).field_mapping,
      fernetDecrypt
        (generate_key_from_passkey "wrong-horse"
          (some ((encrypt_pii_fields sampleFields "correct-horse" sampleIvs).salt))).1
        e.2.encrypted_value = none := by decide
  exact ⟨hex,
    (C9_decrypt_total_abort (encrypt_pii_fields sampleFields "correct-horse" sampleIvs)
      "wrong-horse").1 hex⟩

/-- C7: the claim that restore surfaces a missing sidecar as a
distinguishable not-found error is false on the code: for every document
whose record exists and has an encrypted artifact, and every passkey,
`decrypt_document` with the sidecar absent yields
`HTTPException(500, ...)` — the `FileNotFoundError` raised inside
`generate_decrypted_pdf` is swallowed by its blanket handler and surfaces as
a generic internal error, not as not-found. -/
theorem C7_missing_sidecar_surfaces_500 (store : List (String × DocRecord))
    (id passkey ep : String) (doc : DocRecord)
    (hdoc : lookupDoc store id = some doc)
    (hep : doc.encrypted_path = some ep) :
    decrypt_document store id none passkey
      = .error (.httpException 500
          "Decryption failed: Failed to generate decrypted PDF: Encryption metadata not found") := by
  simp only [decrypt_document, decryptEndpointBody, hdoc, hep,
    generate_decrypted_pdf, decryptPdfBody, pyStr]
  rfl

/-- C7 witness: concrete store with the sidecar absent. -/
theorem C7_missing_sidecar_surfaces_500_witness :
    lookupDoc sampleStore "1" = some sampleDoc ∧
    sampleDoc.encrypted_path = some "encrypted_doc.pdf" ∧
    decrypt_document sampleStore "1" none "correct-horse"
      = .error (.httpException 500
          "Decryption failed: Failed to generate decrypted PDF: Encryption metadata not found") :=
  ⟨rfl, rfl,
   C7_missing_sidecar_surfaces_500 sampleStore "1" "correct-horse"
     "encrypted_doc.pdf" sampleDoc rfl rfl⟩

/-- C8: for every analyzed document and every passkey shorter than 8
characters, `encrypt_document` performs no key derivation or encryption work
and produces no sidecar and no artifact — but the `HTTPException(400)`
validation error it raises is swallowed by its own `except Exception`
handler and surfaces as `HTTPException(500, "Encryption failed: ...")`, not
as a validation (client) error. -/
theorem C8_weak_passkey_aborts_before_work (store : List (String × DocRecord))
    (id passkey : String) (doc : DocRecord) (f : PiiField) (fs : List PiiField)
    (ivs : Nat → Nat) (hdoc : lookupDoc store id = some doc)
    (hpii : doc.detected_pii = some (f :: fs)) (hlen : passkey.length < 8) :
    encrypt_document store id passkey ivs
      = { result := .error (.httpException 500
            "Encryption failed: 400: Passkey must be at least 8 characters"),
          encryptionWork := false, sidecar := none, artifact := none } := by
  have hbody : encryptEndpointBody store id passkey ivs
      = { result := .error (.httpException 400 "Passkey must be at least 8 characters"),
          encryptionWork := false, sidecar := none, artifact := none } := by
    simp [encryptEndpointBody, hdoc, hpii, hlen]
  unfold encrypt_document
  rw [hbody]
  rfl

/-- C8 witness: a 6-character passkey on the sample analyzed document. -/
theorem C8_weak_passkey_aborts_before_work_witness :
    lookupDoc sampleStore "1" = some sampleDoc ∧
    sampleDoc.detected_pii = some (sampleField :: []) ∧
    ("short1" : String).length < 8 ∧
    encrypt_document sampleStore "1" "short1" sampleIvs
      = { result := .error (.httpException 500
            "Encryption failed: 400: Passkey must be at least 8 characters"),
          encryptionWork := false, sidecar := none, artifact := none } :=
  ⟨rfl, rfl, by decide,
   C8_weak_passkey_aborts_before_work sampleStore "1" "short1" sampleDoc
     sampleField [] sampleIvs rfl rfl (by decide)⟩

end PiiGuardian
